import Mathlib

/-!
Verification development for the StreamFlow real-time event analytics
pipeline.  The definitions below are shallow embeddings of the Python
services:

* `TimeWindow` / `StreamProcessor` — `src/streamflow/services/analytics/main.py`
* `AlertEngine`                    — `src/streamflow/services/alerting/main.py`
* ingestion validation             — `src/services/ingestion/main_refactored.py`
* `StorageService`                 — `src/services/storage/main.py`

Machine `datetime` values are modelled as `Int` seconds; `uuid4`-assigned
identifiers are modelled as `Nat` values supplied explicitly by the caller
(the Python code draws them from a fresh-id source at call time).
Python `dict`s are modelled as insertion-ordered association lists with
`dictGet` / `dictSet` / `dictRemove` mirroring `d[k]`, `d[k] = v`, `del d[k]`.
-/

namespace StreamFlow

/-! ## Shared data model (`src/shared/models.py`) -/

/-- The `EventType` enum of `src/shared/models.py`. -/
inductive EventType where
  | webClick
  | webPageview
  | apiRequest
  | apiResponse
  | userLogin
  | userLogout
  | error
  | metric
  | custom
  deriving DecidableEq, Repr

/-- String value of an `EventType`, as in the Python `str` enum. -/
def EventType.value : EventType → String
  | .webClick => "web.click"
  | .webPageview => "web.pageview"
  | .apiRequest => "api.request"
  | .apiResponse => "api.response"
  | .userLogin => "user.login"
  | .userLogout => "user.logout"
  | .error => "error"
  | .metric => "metric"
  | .custom => "custom"

/-- The `EventSeverity` enum of `src/shared/models.py`. -/
inductive EventSeverity where
  | low
  | medium
  | high
  | critical
  deriving DecidableEq, Repr

/-- String value of an `EventSeverity`. -/
def EventSeverity.value : EventSeverity → String
  | .low => "low"
  | .medium => "medium"
  | .high => "high"
  | .critical => "critical"

/-- The `Event` model of `src/shared/models.py`, restricted to the fields the
verified services read (`data`/`metadata` payloads are never inspected by the
code under verification, only forwarded). -/
structure Event where
  id : Nat
  type : EventType
  source : String
  timestamp : Int
  severity : EventSeverity
  userId : Option String
  tags : List String
  deriving DecidableEq, Repr

/-! ## Association-list model of Python dicts -/

/-- Python `d.get(k)` / `d[k]` on an insertion-ordered dict. -/
def dictGet {κ α : Type} [DecidableEq κ] : List (κ × α) → κ → Option α
  | [], _ => none
  | (k', v) :: rest, k => if k' = k then some v else dictGet rest k

/-- Python `d[k] = v`: replace in place, or append a fresh key. -/
def dictSet {κ α : Type} [DecidableEq κ] : List (κ × α) → κ → α → List (κ × α)
  | [], k, v => [(k, v)]
  | (k', v') :: rest, k, v =>
      if k' = k then (k, v) :: rest else (k', v') :: dictSet rest k v

/-- Python `del d[k]` (a no-op when the key is absent). -/
def dictRemove {κ α : Type} [DecidableEq κ] : List (κ × α) → κ → List (κ × α)
  | [], _ => []
  | (k', v') :: rest, k =>
      if k' = k then dictRemove rest k else (k', v') :: dictRemove rest k

/-! ## TimeWindow (`src/streamflow/services/analytics/main.py`, class `TimeWindow`)

The Python class keeps a `deque` and, on every access, pops events from the
*front* while the front event's timestamp is strictly older than
`utcnow() - size_seconds`.  `datetime.utcnow()` is modelled by an explicit
`now : Int` argument at each call. -/

/-- State of `TimeWindow.__init__`: `size_seconds`, `slide_seconds` (default = size) and
the event buffer (`deque`, head = oldest inserted). -/
structure TimeWindow where
  sizeSeconds : Int
  slideSeconds : Int
  data : List Event
  deriving DecidableEq, Repr

namespace TimeWindow

/-- Constructor matching `TimeWindow(size_seconds, slide_seconds=None)`. -/
def mk0 (sizeSeconds : Int) (slideSeconds : Option Int := none) : TimeWindow :=
  { sizeSeconds := sizeSeconds
    slideSeconds := slideSeconds.getD sizeSeconds
    data := [] }

/-- Model of `TimeWindow._cleanup_old_events`: pop from the head of the deque while the
head's timestamp is strictly below `now - size_seconds`. -/
def cleanupOldEvents (w : TimeWindow) (now : Int) : TimeWindow :=
  { w with data := w.data.dropWhile (fun e => e.timestamp < now - w.sizeSeconds) }

/-- Model of `TimeWindow.add_event`: append, then clean up. -/
def addEvent (w : TimeWindow) (e : Event) (now : Int) : TimeWindow :=
  cleanupOldEvents { w with data := w.data ++ [e] } now

/-- Model of `TimeWindow.get_events`: clean up, then return the buffer. -/
def getEvents (w : TimeWindow) (now : Int) : List Event :=
  (w.cleanupOldEvents now).data

/-- Model of `TimeWindow.count`: clean up, then return the buffer length. -/
def count (w : TimeWindow) (now : Int) : Nat :=
  (w.cleanupOldEvents now).data.length

end TimeWindow

/-! ## StreamProcessor (`src/streamflow/services/analytics/main.py`)

`process_event` appends the event to every window, bumps two in-memory
counters, runs every registered rule inside a per-rule `try/except`, and
finally emits derived metrics.  Rule conditions are strings handed to
Python `eval` with a fixed context dict; `eval` itself is modelled as an
opaque parameter `evalFn` that may fail, and `_evaluate_condition`'s
`except` clause maps any failure to `False`.  Rule actions are Python
coroutines that may raise; they are modelled as `Except`-valued functions
whose `.ok` payload is the action's (possibly falsy, i.e. `none`) result. -/

/-- The `ProcessingStatus` values used by `process_event`. -/
inductive ProcessingStatus where
  | completed
  | failed
  deriving DecidableEq, Repr

/-- The `ProcessingResult` records appended by `process_event`. -/
structure ProcessingResult where
  eventId : Nat
  status : ProcessingStatus
  output : Option String
  error : Option String
  deriving DecidableEq, Repr

/-- A registered rule, as stored by `StreamProcessor.register_rule`: the dict
`{"name": ..., "condition": ..., "action": ...}`. -/
structure Rule where
  name : String
  condition : String
  action : Event → Except String (Option String)

/-- The `MetricType` enum of `src/shared/models.py`. -/
inductive MetricType where
  | counter
  | gauge
  | histogram
  | timer
  deriving DecidableEq, Repr

/-- A metric as assembled by `StreamProcessor._emit_metric`. -/
structure MetricData where
  name : String
  mtype : MetricType
  value : Int
  tags : List (String × String)
  deriving DecidableEq, Repr

/-- State of `StreamProcessor.__init__`: window registry, rule list, counter dict. -/
structure StreamProcessor where
  windows : List (String × TimeWindow)
  rules : List Rule
  metrics : List (String × Int)

/-- The context dict built by `StreamProcessor._evaluate_condition` (the
string-valued entries `event_type`, `severity`, ... are projections of
`event` and are recovered from it). -/
structure EvalContext where
  event : Event
  windows : List (String × TimeWindow)
  metrics : List (String × Int)

/-- Model of `StreamProcessor._evaluate_condition`: run the dynamic evaluator and map
any exception (e.g. a `NameError` from an unknown identifier) to `False`. -/
def evaluateCondition (evalFn : String → EvalContext → Except String Bool)
    (cond : String) (ctx : EvalContext) : Bool :=
  match evalFn cond ctx with
  | .ok b => b
  | .error _ => false

/-- Read of the `defaultdict(int)` counters: missing keys count as `0`. -/
def metricGet (m : List (String × Int)) (k : String) : Int :=
  (dictGet m k).getD 0

/-- Increment `self.metrics[key] += 1` on the `defaultdict(int)`. -/
def bumpMetric (m : List (String × Int)) (k : String) : List (String × Int) :=
  dictSet m k (metricGet m k + 1)

namespace StreamProcessor

/-- Model of `StreamProcessor.register_window`. -/
def registerWindow (sp : StreamProcessor) (name : String) (sizeSeconds : Int)
    (slideSeconds : Option Int := none) : StreamProcessor :=
  { sp with windows := dictSet sp.windows name (TimeWindow.mk0 sizeSeconds slideSeconds) }

/-- Model of `StreamProcessor.register_rule`: unconditionally append the rule dict.
The Python method performs no validation of the condition string. -/
def registerRule (sp : StreamProcessor) (name condition : String)
    (action : Event → Except String (Option String)) : StreamProcessor :=
  { sp with rules := sp.rules ++ [⟨name, condition, action⟩] }

end StreamProcessor

/-- One iteration of the rule loop in `process_event`: evaluate the condition
(exceptions already mapped to `False`), run the action inside the per-rule
`try`, and decide which `ProcessingResult`, if any, is appended. -/
def applyRule (evalFn : String → EvalContext → Except String Bool)
    (ctx : EvalContext) (e : Event) (r : Rule) : Option ProcessingResult :=
  if evaluateCondition evalFn r.condition ctx then
    match r.action e with
    | .ok (some out) => some ⟨e.id, .completed, some out, none⟩
    | .ok none => none
    | .error msg => some ⟨e.id, .failed, none, some msg⟩
  else none

/-- Model of `StreamProcessor._generate_metrics`: the fixed metrics plus one gauge per
window, in emission order. -/
def generateMetrics (windows : List (String × TimeWindow)) (e : Event) (now : Int) :
    List MetricData :=
  [ ⟨"events_total", .counter, 1, [("source", e.source), ("type", e.type.value)]⟩,
    ⟨"events_by_severity", .counter, 1, [("severity", e.severity.value)]⟩,
    ⟨"event_processing_time", .histogram, now - e.timestamp, [("source", e.source)]⟩ ] ++
  windows.map (fun p =>
    ⟨"window_" ++ p.1 ++ "_count", .gauge, (p.2.count now : Int), [("window", p.1)]⟩)

/-- Model of `StreamProcessor.process_event`: update all windows, bump counters, fold
the rule loop, then emit metrics.  Returns the updated processor, the
accumulated `ProcessingResult` list and the emitted metrics. -/
def StreamProcessor.processEvent (evalFn : String → EvalContext → Except String Bool)
    (sp : StreamProcessor) (e : Event) (now : Int) :
    StreamProcessor × List ProcessingResult × List MetricData :=
  let windows := sp.windows.map (fun p => (p.1, p.2.addEvent e now))
  let metrics := bumpMetric (bumpMetric sp.metrics "events_processed")
    ("events_by_type_" ++ e.type.value)
  let ctx : EvalContext := ⟨e, windows, metrics⟩
  let results := sp.rules.foldl
    (fun acc r =>
      match applyRule evalFn ctx e r with
      | some res => acc ++ [res]
      | none => acc) []
  ({ sp with windows := windows, metrics := metrics },
   results,
   generateMetrics windows e now)

/-! ## Ingestion edge (`src/services/ingestion/main_refactored.py`)

`DefaultEventValidator.validate` and `EventIngestionService.create_event`.
Python truthiness of an optional string (`not event_request.user_id`,
`event_request.user_id or user_context.get("user_id")`) treats both `None`
and the empty string as falsy; `strFalsy` captures that. -/

/-- Truthiness test for `Optional[str]`: `None` and `""` are falsy. -/
def strFalsy (s : Option String) : Bool :=
  s.getD "" = ""

/-- The `EventCreateRequest` pydantic model (fields the validator reads;
pydantic itself enforces `source` nonempty and `severity` default `medium`). -/
structure EventCreateRequest where
  type : EventType
  source : String
  severity : EventSeverity
  userId : Option String
  tags : List String
  deriving DecidableEq, Repr

/-- The caller-identity dict produced by `JWTAuthenticationService`. -/
structure UserContext where
  userId : Option String
  deriving DecidableEq, Repr

/-- Model of `DefaultEventValidator.validate`: reject empty source, `error`+`low`, and
`user.login` without a (truthy) `user_id` on the request itself. -/
def DefaultEventValidator.validate (r : EventCreateRequest) : Bool :=
  if r.source = "" then false
  else if r.type = EventType.error ∧ r.severity = EventSeverity.low then false
  else if r.type = EventType.userLogin ∧ strFalsy r.userId then false
  else true

/-- Model of `EventIngestionService.create_event`: validate first (raising the 400
`"Event validation failed"` response, so the event is never constructed nor
published), then build the `Event`, stamping `user_id` with the caller
identity only when the request's own `user_id` is falsy. -/
def EventIngestionService.createEvent (r : EventCreateRequest) (ctx : UserContext)
    (freshId : Nat) (now : Int) : Except String Event :=
  if ¬ DefaultEventValidator.validate r then
    Except.error "Event validation failed"
  else
    Except.ok
      { id := freshId
        type := r.type
        source := r.source
        timestamp := now
        severity := r.severity
        userId := if strFalsy r.userId then ctx.userId else r.userId
        tags := r.tags }

/-! ## Storage service (`src/services/storage/main.py`)

`StorageService.query_events` builds a SQL string by conditionally appending
`WHERE` clauses — one per *truthy* filter field (Python truthiness: `None`
and the empty list skip the clause) — then `ORDER BY timestamp DESC LIMIT
:limit OFFSET :offset`.  The `tags` field of `StorageQuery` is declared but
the builder never appends a clause for it.  The `events` table (`EventModel`
in `src/streamflow/shared/database.py`) has `id` as primary key, and
`store_event` issues a plain `INSERT` inside a blanket `try/except`. -/

/-- The `StorageQuery` pydantic model (`limit` defaults to 100 and is
validated `le=10000` by pydantic; `offset` is `ge=0`). -/
structure StorageQuery where
  startTime : Option Int
  endTime : Option Int
  eventTypes : Option (List EventType)
  sources : Option (List String)
  userIds : Option (List String)
  tags : Option (List String)
  limit : Nat
  offset : Nat
  deriving DecidableEq, Repr

/-- Conjunction of the `WHERE` clauses `query_events` actually appends.
A `some []` filter is falsy in Python, so its clause is skipped, and a row
with SQL `NULL` `user_id` never satisfies `user_id = ANY(...)`.  There is no
`tags` clause: the source never adds one. -/
def matchesQuery (q : StorageQuery) (e : Event) : Bool :=
  (match q.startTime with
   | none => true
   | some t => t ≤ e.timestamp) &&
  (match q.endTime with
   | none => true
   | some t => e.timestamp ≤ t) &&
  (match q.eventTypes with
   | none => true
   | some l => l.isEmpty || l.contains e.type) &&
  (match q.sources with
   | none => true
   | some l => l.isEmpty || l.contains e.source) &&
  (match q.userIds with
   | none => true
   | some l => l.isEmpty ||
       (match e.userId with
        | none => false
        | some u => l.contains u))

/-- Insertion step of the `ORDER BY timestamp DESC` model sort. -/
def insertByTsDesc (e : Event) : List Event → List Event
  | [] => [e]
  | x :: xs => if x.timestamp < e.timestamp then e :: x :: xs else x :: insertByTsDesc e xs

/-- Sort modelling `ORDER BY timestamp DESC` over the matching rows (ties in any order, as
in SQL). -/
def sortByTsDesc (l : List Event) : List Event :=
  l.foldr insertByTsDesc []

/-- Model of `StorageService.query_events` over an in-memory `events` table: filter by
the assembled clauses, order by timestamp descending, then apply
`OFFSET`/`LIMIT`. -/
def StorageService.queryEvents (db : List Event) (q : StorageQuery) : List Event :=
  ((sortByTsDesc (db.filter (matchesQuery q))).drop q.offset).take q.limit

/-- The `try/except` wrapper of `query_events`: any session/SQL/row-decoding
failure is caught, logged, counted, and the empty list is returned. -/
def StorageService.queryEventsSafe (db : Except String (List Event))
    (q : StorageQuery) : List Event :=
  match db with
  | .error _ => []
  | .ok rows => StorageService.queryEvents rows q

/-- Counters kept by `store_event` via
`storage_requests_total.labels(operation="store", status=...)`. -/
structure StoreCounters where
  successTotal : Nat
  errorTotal : Nat
  deriving DecidableEq, Repr

/-- The `INSERT INTO events ...` statement: the table's primary key on `id`
rejects a duplicate id with an integrity error. -/
def insertRow (rows : List Event) (e : Event) : Except String (List Event) :=
  if rows.any (fun r => r.id = e.id) then
    Except.error "duplicate key value violates unique constraint"
  else
    Except.ok (rows ++ [e])

/-- Model of `StorageService.store_event`: run the insert inside the blanket
`try/except`; on success return `True` and count a success, on any exception
log it, count an error and return `False`. -/
def StorageService.storeEvent (rows : List Event) (c : StoreCounters) (e : Event) :
    List Event × StoreCounters × Bool :=
  match insertRow rows e with
  | .ok rows' => (rows', { c with successTotal := c.successTotal + 1 }, true)
  | .error _ => (rows, { c with errorTotal := c.errorTotal + 1 }, false)

/-- Number of rows in the `events` table with the given id. -/
def rowCount (rows : List Event) (id : Nat) : Nat :=
  (rows.filter (fun r => r.id = id)).length

/-- Repeated (`n` times) submission of the same event. -/
def storeRepeat (rows : List Event) (c : StoreCounters) (e : Event) :
    Nat → List Event × StoreCounters
  | 0 => (rows, c)
  | n + 1 =>
      let step := StorageService.storeEvent rows c e
      storeRepeat step.1 step.2.1 e n

/-! ## Alert engine (`src/streamflow/services/alerting/main.py`)

`AlertEngine` keeps three in-memory dicts: `rules`, `active_alerts` and
`alert_states`.  Alerts are fired either by `_fire_alert` (the
analytics-message path, which consults `_is_alert_suppressed` first) or by
`_process_direct_alert` (the `alerts.*` path, which stores the alert
unconditionally).  `_alert_lifecycle_manager` wakes periodically and scans a
snapshot of `active_alerts` for escalation-eligible alerts; `_escalate_alert`
flips the state to `escalated` *before* building and sending the clone, so a
later scan can never escalate the same alert again. -/

/-- The `AlertLevel` enum of `src/shared/models.py`. -/
inductive AlertLevel where
  | info
  | warning
  | error
  | critical
  deriving DecidableEq, Repr

/-- The `AlertState` enum of the alerting service. -/
inductive AlertState where
  | pending
  | active
  | suppressed
  | resolved
  | escalated
  deriving DecidableEq, Repr

/-- The `AlertRule` model (fields the engine reads). -/
structure AlertRule where
  id : Nat
  name : String
  condition : String
  threshold : Int
  level : AlertLevel
  enabled : Bool
  suppressionMinutes : Int
  escalationMinutes : Int
  deriving DecidableEq, Repr

/-- The `Alert` model of `src/shared/models.py`. -/
structure Alert where
  id : Nat
  ruleId : Nat
  level : AlertLevel
  title : String
  message : String
  timestamp : Int
  resolved : Bool
  resolvedAt : Option Int
  resolvedBy : Option String
  acknowledged : Bool
  acknowledgedAt : Option Int
  acknowledgedBy : Option String
  deriving DecidableEq, Repr

/-- State of `AlertEngine.__init__`: the three dicts (notification channels carry no
state the verified paths read). -/
structure AlertEngine where
  rules : List (Nat × AlertRule)
  activeAlerts : List (Nat × Alert)
  alertStates : List (Nat × AlertState)
  deriving DecidableEq, Repr

/-- Payload schema of a direct alert message on `alerts.*`. -/
structure DirectAlertPayload where
  ruleId : Nat
  level : AlertLevel
  title : String
  message : String
  deriving DecidableEq, Repr

/-- The `Alert(...)` record built by `AlertEngine._fire_alert`. -/
def firedAlert (rule : AlertRule) (value : Int) (freshId : Nat) (now : Int) : Alert :=
  { id := freshId
    ruleId := rule.id
    level := rule.level
    title := "Alert: " ++ rule.name
    message := "Rule " ++ rule.name ++ " triggered. Value: " ++ toString value ++
      ", Threshold: " ++ toString rule.threshold
    timestamp := now
    resolved := false, resolvedAt := none, resolvedBy := none
    acknowledged := false, acknowledgedAt := none, acknowledgedBy := none }

/-- The `Alert(...)` record built by `AlertEngine._process_direct_alert` from
a direct alert payload. -/
def directAlertOf (p : DirectAlertPayload) (freshId : Nat) (now : Int) : Alert :=
  { id := freshId
    ruleId := p.ruleId
    level := p.level
    title := p.title
    message := p.message
    timestamp := now
    resolved := false, resolvedAt := none, resolvedBy := none
    acknowledged := false, acknowledgedAt := none, acknowledgedBy := none }

namespace AlertEngine

/-- Model of `AlertEngine._is_alert_suppressed`: `False` when `suppression_minutes ≤ 0`,
otherwise `True` iff some active alert of the same rule fired strictly after
`now - suppression_minutes` and is unresolved. -/
def isAlertSuppressed (eng : AlertEngine) (rule : AlertRule) (now : Int) : Bool :=
  if rule.suppressionMinutes ≤ 0 then false
  else
    eng.activeAlerts.any fun p =>
      decide (p.2.ruleId = rule.id) &&
      decide (now - rule.suppressionMinutes * 60 < p.2.timestamp) &&
      !p.2.resolved

/-- Model of `AlertEngine._fire_alert`: drop the alert if suppressed, otherwise build
it from the rule, store it in `active_alerts` and mark its state `ACTIVE`
(notification fan-out has no effect on engine state). -/
def fireAlert (eng : AlertEngine) (rule : AlertRule) (value : Int)
    (freshId : Nat) (now : Int) : AlertEngine :=
  if eng.isAlertSuppressed rule now then eng
  else
    { eng with
        activeAlerts := dictSet eng.activeAlerts freshId (firedAlert rule value freshId now)
        alertStates := dictSet eng.alertStates freshId AlertState.active }

/-- Model of `AlertEngine._process_direct_alert`: build the alert from the payload and
store it unconditionally — this path never consults `_is_alert_suppressed`. -/
def processDirectAlert (eng : AlertEngine) (p : DirectAlertPayload)
    (freshId : Nat) (now : Int) : AlertEngine :=
  { eng with
      activeAlerts := dictSet eng.activeAlerts freshId (directAlertOf p freshId now)
      alertStates := dictSet eng.alertStates freshId AlertState.active }

/-- Model of `AlertEngine.acknowledge_alert`: update the alert in place when present,
do nothing at all otherwise. -/
def acknowledgeAlert (eng : AlertEngine) (alertId : Nat) (who : String)
    (now : Int) : AlertEngine :=
  match dictGet eng.activeAlerts alertId with
  | none => eng
  | some a =>
      { eng with
          activeAlerts := dictSet eng.activeAlerts alertId
            { a with acknowledged := true, acknowledgedAt := some now,
                     acknowledgedBy := some who } }

/-- Model of `AlertEngine.resolve_alert`: when present, mark the alert resolved and
delete it from `active_alerts` and `alert_states`; otherwise do nothing. -/
def resolveAlert (eng : AlertEngine) (alertId : Nat) (who : String)
    (now : Int) : AlertEngine :=
  match dictGet eng.activeAlerts alertId with
  | none => eng
  | some _ =>
      { eng with
          activeAlerts := dictRemove eng.activeAlerts alertId
          alertStates := dictRemove eng.alertStates alertId }

end AlertEngine

/-- The clone built by `AlertEngine._escalate_alert`: level forced to
`CRITICAL`, title prefixed with `ESCALATED: `. -/
def escalationClone (alert : Alert) (rule : AlertRule) (freshId : Nat)
    (now : Int) : Alert :=
  { id := freshId
    ruleId := rule.id
    level := AlertLevel.critical
    title := "ESCALATED: " ++ alert.title
    message := "Alert not acknowledged within " ++ toString rule.escalationMinutes ++
      " minutes: " ++ alert.message
    timestamp := now
    resolved := false, resolvedAt := none, resolvedBy := none
    acknowledged := false, acknowledgedAt := none, acknowledgedBy := none }

/-- One iteration of `_alert_lifecycle_manager`'s loop over the
`active_alerts` snapshot.  The fold state is `(alert_states, clones emitted
so far tagged with the originating alert id, next fresh id)`.  Escalation
fires when the rule exists, `escalation_minutes > 0`, the alert is
unacknowledged, its state is not already `ESCALATED`, and the deadline has
passed; `_escalate_alert` then records the `ESCALATED` state and emits the
clone. -/
def scanStep (rules : List (Nat × AlertRule)) (now : Int)
    (st : List (Nat × AlertState) × List (Nat × Alert) × Nat) (p : Nat × Alert) :
    List (Nat × AlertState) × List (Nat × Alert) × Nat :=
  if p.2.resolved then st
  else
    match dictGet rules p.2.ruleId with
    | none => st
    | some rule =>
        if 0 < rule.escalationMinutes ∧ p.2.acknowledged = false ∧
            dictGet st.1 p.1 ≠ some AlertState.escalated ∧
            p.2.timestamp + rule.escalationMinutes * 60 ≤ now then
          (dictSet st.1 p.1 AlertState.escalated,
           st.2.1 ++ [(p.1, escalationClone p.2 rule st.2.2 now)],
           st.2.2 + 1)
        else st

/-- One wake-up of `_alert_lifecycle_manager` at time `now`: fold `scanStep`
over a snapshot of `active_alerts`.  Returns the engine with updated states
and the clones emitted during this scan, tagged by originating alert id. -/
def AlertEngine.lifecycleScan (eng : AlertEngine) (now : Int) (freshId : Nat) :
    AlertEngine × List (Nat × Alert) :=
  ({ eng with
      alertStates :=
        (eng.activeAlerts.foldl (scanStep eng.rules now) (eng.alertStates, [], freshId)).1 },
   (eng.activeAlerts.foldl (scanStep eng.rules now) (eng.alertStates, [], freshId)).2.1)

/-- A sequence of lifecycle-manager wake-ups, each with its wall-clock time
and fresh-id base. -/
def AlertEngine.runScans (eng : AlertEngine) :
    List (Int × Nat) → AlertEngine × List (Nat × Alert)
  | [] => (eng, [])
  | s :: rest =>
      (((eng.lifecycleScan s.1 s.2).1.runScans rest).1,
       (eng.lifecycleScan s.1 s.2).2 ++ ((eng.lifecycleScan s.1 s.2).1.runScans rest).2)

/-- Atomic operations through which the engine's maps evolve. -/
inductive EngStep where
  | fire (rule : AlertRule) (value : Int) (freshId : Nat) (now : Int)
  | direct (p : DirectAlertPayload) (freshId : Nat) (now : Int)
  | ack (alertId : Nat) (who : String) (now : Int)
  | resolve (alertId : Nat) (who : String) (now : Int)
  | scan (now : Int) (freshId : Nat)
  deriving DecidableEq

/-- Apply one engine operation. -/
def AlertEngine.applyStep (eng : AlertEngine) : EngStep → AlertEngine
  | .fire r v fid now => eng.fireAlert r v fid now
  | .direct p fid now => eng.processDirectAlert p fid now
  | .ack aid who now => eng.acknowledgeAlert aid who now
  | .resolve aid who now => eng.resolveAlert aid who now
  | .scan now fid => (eng.lifecycleScan now fid).1

/-- Apply a sequence of engine operations. -/
def AlertEngine.runSteps (eng : AlertEngine) (steps : List EngStep) : AlertEngine :=
  steps.foldl AlertEngine.applyStep eng

/-- Separation invariant behind the suppression guarantee for a given rule
id and suppression window `m` (minutes): all stored active alerts are
unresolved, and any two distinct active alerts of that rule fired at least
`m * 60` seconds apart. -/
def SuppressionInv (rid : Nat) (m : Int) (eng : AlertEngine) : Prop :=
  (∀ i a, dictGet eng.activeAlerts i = some a → a.resolved = false) ∧
  (∀ i j a b, dictGet eng.activeAlerts i = some a →
    dictGet eng.activeAlerts j = some b → i ≠ j →
    a.ruleId = rid → b.ruleId = rid →
    m * 60 ≤ a.timestamp - b.timestamp ∨ m * 60 ≤ b.timestamp - a.timestamp)

/-- Trace condition: every `fire` step for the distinguished rule id uses
that very rule record (the engine fires rules out of its own registry). -/
def FireUsesRule (rule : AlertRule) : EngStep → Bool
  | .fire r _ _ _ => if r.id = rule.id then decide (r = rule) else true
  | _ => true

/-- Trace condition: no direct alert message carries the distinguished rule
id (the direct path bypasses suppression, see `C2_counterexample`). -/
def NoDirectFor (rid : Nat) : EngStep → Bool
  | .direct p _ _ => decide (p.ruleId ≠ rid)
  | _ => true

/-! ## Theorems -/

theorem dictGet_set_self {κ α : Type} [DecidableEq κ] (l : List (κ × α)) (k : κ) (v : α) :
    dictGet (dictSet l k v) k = some v := by
  induction l with
  | nil => simp [dictGet, dictSet]
  | cons p rest ih =>
      obtain ⟨pk, pv⟩ := p
      by_cases h : pk = k
      · simp [dictSet, dictGet, h]
      · simp [dictSet, dictGet, h, ih]

theorem dictGet_set_ne {κ α : Type} [DecidableEq κ] (l : List (κ × α)) (k k' : κ) (v : α)
    (h : k' ≠ k) : dictGet (dictSet l k v) k' = dictGet l k' := by
  induction l with
  | nil => simp [dictGet, dictSet, Ne.symm h]
  | cons p rest ih =>
      obtain ⟨pk, pv⟩ := p
      by_cases hp : pk = k
      · simp [dictSet, dictGet, hp, Ne.symm h]
      · by_cases hp' : pk = k'
        · simp [dictSet, dictGet, hp, hp', h]
        · simp [dictSet, dictGet, hp, hp', ih]

theorem dictGet_remove_ne {κ α : Type} [DecidableEq κ] (l : List (κ × α)) (k k' : κ)
    (h : k' ≠ k) : dictGet (dictRemove l k) k' = dictGet l k' := by
  induction l with
  | nil => simp [dictRemove]
  | cons p rest ih =>
      obtain ⟨pk, pv⟩ := p
      by_cases hp : pk = k
      · simp [dictRemove, dictGet, hp, Ne.symm h, ih]
      · by_cases hp' : pk = k'
        · simp [dictRemove, dictGet, hp, hp', h]
        · simp [dictRemove, dictGet, hp, hp', ih]

theorem dictGet_mem {κ α : Type} [DecidableEq κ] {l : List (κ × α)} {k : κ} {v : α}
    (h : dictGet l k = some v) : (k, v) ∈ l := by
  induction l with
  | nil => simp [dictGet] at h
  | cons p rest ih =>
      obtain ⟨pk, pv⟩ := p
      by_cases hp : pk = k
      · simp [dictGet, hp] at h
        subst hp
        subst h
        exact List.mem_cons_self _ _
      · simp [dictGet, hp] at h
        exact List.mem_cons_of_mem _ (ih h)

/-- On a buffer sorted by timestamp, `dropWhile (timestamp < c)` leaves only
events with timestamp `≥ c`. -/
theorem mem_dropWhile_cutoff {l : List Event} {c : Int}
    (hs : l.Pairwise (fun a b => a.timestamp ≤ b.timestamp))
    {e : Event} (he : e ∈ l.dropWhile (fun x => decide (x.timestamp < c))) :
    c ≤ e.timestamp := by
  induction l with
  | nil => simp [List.dropWhile] at he
  | cons x xs ih =>
      rw [List.dropWhile_cons] at he
      rcases List.pairwise_cons.mp hs with ⟨hx, hxs⟩
      by_cases hlt : x.timestamp < c
      · simp only [hlt, decide_eq_true_eq, if_pos] at he
        exact ih hxs he
      · simp [hlt] at he
        push_neg at hlt
        rcases he with rfl | hmem
        · exact hlt
        · exact le_trans hlt (hx e hmem)

/-- C1 (amended): provided the buffer is in nondecreasing timestamp order,
an access at time `τ` never observes an event whose timestamp is *strictly*
older than `τ - size`; and `count` agrees with `get_events`. -/
theorem C1_timeWindow_eviction (w : TimeWindow) (τ : Int) (e : Event)
    (hsorted : w.data.Pairwise (fun a b => a.timestamp ≤ b.timestamp))
    (hold : e.timestamp < τ - w.sizeSeconds) :
    e ∉ w.getEvents τ ∧ w.count τ = (w.getEvents τ).length := by
  refine ⟨fun hmem => ?_, rfl⟩
  have := mem_dropWhile_cutoff (c := τ - w.sizeSeconds) hsorted hmem
  omega

/-- Concrete instance of `C1_timeWindow_eviction`: a 10-second window holding
a single event stamped 50, observed at time 100. -/
theorem C1_timeWindow_eviction_witness :
    let e : Event := { id := 1, type := .error, source := "svc", timestamp := 50,
                       severity := .high, userId := none, tags := [] }
    let w : TimeWindow := { sizeSeconds := 10, slideSeconds := 10, data := [e] }
    e ∉ w.getEvents 100 ∧ w.count 100 = (w.getEvents 100).length := by
  intro e w
  exact C1_timeWindow_eviction w 100 e (by decide) (by decide)

/-- C1 as stated is violated by the code on two concrete inputs: (a) a window
of size 10 holding a fresh event (timestamp 100) in front of an old one
(timestamp 0) still contains the old event when observed at `τ = 100 ≥ 0 + 10`,
because `_cleanup_old_events` only pops a prefix of the deque; (b) an event
with timestamp 90 in a size-10 window is still observed at `τ = 100 = 90 + 10`,
because eviction uses a strict comparison against `now - size`. -/
theorem C1_counterexample :
    (let eNew : Event := { id := 1, type := .error, source := "svc", timestamp := 100,
                           severity := .high, userId := none, tags := [] }
     let eOld : Event := { id := 2, type := .error, source := "svc", timestamp := 0,
                           severity := .high, userId := none, tags := [] }
     let w : TimeWindow := ((TimeWindow.mk0 10).addEvent eNew 100).addEvent eOld 100
     eOld ∈ w.getEvents 100 ∧ (100 : Int) ≥ eOld.timestamp + w.sizeSeconds) ∧
    (let eB : Event := { id := 3, type := .error, source := "svc", timestamp := 90,
                         severity := .high, userId := none, tags := [] }
     let wB : TimeWindow := (TimeWindow.mk0 10).addEvent eB 90
     eB ∈ wB.getEvents 100 ∧ (100 : Int) ≥ eB.timestamp + wB.sizeSeconds) := by
  constructor
  · exact ⟨by decide, by decide⟩
  · exact ⟨by decide, by decide⟩

theorem foldl_applyRule_eq_filterMap (evalFn : String → EvalContext → Except String Bool)
    (ctx : EvalContext) (e : Event) (l : List Rule) (acc : List ProcessingResult) :
    l.foldl
      (fun acc r =>
        match applyRule evalFn ctx e r with
        | some res => acc ++ [res]
        | none => acc) acc
      = acc ++ l.filterMap (applyRule evalFn ctx e) := by
  induction l generalizing acc with
  | nil => simp
  | cons r rs ih =>
      cases hr : applyRule evalFn ctx e r <;>
        simp [List.foldl_cons, hr, ih, List.filterMap_cons]

/-- C8 (amended): the rule loop of `process_event` is equivalent to an
independent per-rule `filterMap` — a rule whose action raises contributes a
`failed` result and has no effect on whether or how the remaining rules are
evaluated — and metric emission and window updates happen regardless of rule
outcomes. -/
theorem C8_rule_failure_isolated (evalFn : String → EvalContext → Except String Bool)
    (sp : StreamProcessor) (e : Event) (now : Int) :
    (sp.processEvent evalFn e now).2.1 =
      sp.rules.filterMap
        (applyRule evalFn
          ⟨e, sp.windows.map (fun p => (p.1, p.2.addEvent e now)),
           bumpMetric (bumpMetric sp.metrics "events_processed")
             ("events_by_type_" ++ e.type.value)⟩ e) ∧
    (sp.processEvent evalFn e now).2.2 =
      generateMetrics (sp.windows.map (fun p => (p.1, p.2.addEvent e now))) e now ∧
    (sp.processEvent evalFn e now).1.windows =
      sp.windows.map (fun p => (p.1, p.2.addEvent e now)) := by
  refine ⟨?_, rfl, rfl⟩
  simpa [StreamProcessor.processEvent] using
    foldl_applyRule_eq_filterMap evalFn
      ⟨e, sp.windows.map (fun p => (p.1, p.2.addEvent e now)),
       bumpMetric (bumpMetric sp.metrics "events_processed")
         ("events_by_type_" ++ e.type.value)⟩ e sp.rules []

/-- C8 counterexample to the claim as stated: an exception during *condition*
evaluation is swallowed by `_evaluate_condition` (the condition just counts as
false), so no `failed` result is recorded for it — yet processing continues:
with a first rule whose condition raises and a second rule that matches, the
result list holds exactly the second rule's `completed` entry and the metrics
are still emitted. -/
theorem C8_counterexample :
    let e : Event := { id := 7, type := .error, source := "svc", timestamp := 0,
                       severity := .high, userId := none, tags := [] }
    let badEval : String → EvalContext → Except String Bool := fun c _ =>
      if c = "boom" then Except.error "NameError" else Except.ok true
    let sp : StreamProcessor :=
      { windows := [], rules := [], metrics := [] }
    let sp2 := (sp.registerRule "r1" "boom" (fun _ => Except.ok none)).registerRule
      "r2" "True" (fun _ => Except.ok (some "out"))
    (sp2.processEvent badEval e 0).2.1 = [⟨7, .completed, some "out", none⟩] ∧
    (sp2.processEvent badEval e 0).2.2 ≠ [] := by
  refine ⟨rfl, ?_⟩
  intro h
  simp [StreamProcessor.processEvent, generateMetrics] at h

/-- C4 (amended): `register_rule` performs no validation at all — it
unconditionally appends the rule, whatever the condition string contains —
and a condition whose dynamic evaluation fails (as an unknown identifier
does, with a `NameError`) simply evaluates to `False` at processing time. -/
theorem C4_register_rule_unvalidated (sp : StreamProcessor) (n c : String)
    (a : Event → Except String (Option String)) (ctx : EvalContext) (msg : String) :
    (sp.registerRule n c a).rules = sp.rules ++ [⟨n, c, a⟩] ∧
    evaluateCondition (fun _ _ => Except.error msg) c ctx = false :=
  ⟨rfl, rfl⟩

/-- C4 counterexample: a rule whose condition mentions an unknown identifier
is *accepted* by `register_rule` (the rule list grows by one), refuting the
claim that registration fails for such a rule. -/
theorem C4_counterexample :
    ((StreamProcessor.mk [] [] []).registerRule "r" "unknown_identifier > 0"
        (fun _ => Except.ok none)).rules.length = 1 := rfl

/-- C5: ingestion validation rejects `error`+`low` and `user.login` without a
caller-supplied `user_id` (even when a caller identity is available as
fallback — the check runs before stamping), and accepts every other
well-formed request. -/
theorem C5_ingestion_validation (r : EventCreateRequest) (ctx : UserContext)
    (freshId : Nat) (now : Int) :
    (r.type = EventType.error → r.severity = EventSeverity.low →
      EventIngestionService.createEvent r ctx freshId now =
        Except.error "Event validation failed") ∧
    (r.type = EventType.userLogin → strFalsy r.userId = true →
      EventIngestionService.createEvent r ctx freshId now =
        Except.error "Event validation failed") ∧
    (r.source ≠ "" →
      ¬(r.type = EventType.error ∧ r.severity = EventSeverity.low) →
      ¬(r.type = EventType.userLogin ∧ strFalsy r.userId = true) →
      DefaultEventValidator.validate r = true ∧
        ∃ ev : Event, EventIngestionService.createEvent r ctx freshId now = Except.ok ev) := by
  refine ⟨?_, ?_, ?_⟩
  · intro ht hs
    have hv : DefaultEventValidator.validate r = false := by
      simp [DefaultEventValidator.validate, ht, hs]
    simp [EventIngestionService.createEvent, hv]
  · intro ht hu
    have hv : DefaultEventValidator.validate r = false := by
      simp [DefaultEventValidator.validate, ht, hu]
    simp [EventIngestionService.createEvent, hv]
  · intro hsrc herr hlogin
    have hv : DefaultEventValidator.validate r = true := by
      simp [DefaultEventValidator.validate, hsrc, herr, hlogin]
    refine ⟨hv, ⟨{ id := freshId, type := r.type, source := r.source,
                   timestamp := now, severity := r.severity,
                   userId := if strFalsy r.userId then ctx.userId else r.userId,
                   tags := r.tags }, ?_⟩⟩
    simp [EventIngestionService.createEvent, hv]

/-- Concrete instances of `C5_ingestion_validation`: a low-severity error
event is rejected; a `user.login` without request `user_id` is rejected even
though the caller context carries an identity; a plain `web.click` passes. -/
theorem C5_ingestion_validation_witness :
    let ctx : UserContext := { userId := some "authenticated_user" }
    let rErr : EventCreateRequest := { type := .error, source := "svc",
                                       severity := .low, userId := none, tags := [] }
    let rLogin : EventCreateRequest := { type := .userLogin, source := "web-app",
                                         severity := .medium, userId := none, tags := [] }
    let rOk : EventCreateRequest := { type := .webClick, source := "web-app",
                                      severity := .medium, userId := some "u1", tags := [] }
    EventIngestionService.createEvent rErr ctx 1 0 =
        Except.error "Event validation failed" ∧
    EventIngestionService.createEvent rLogin ctx 2 0 =
        Except.error "Event validation failed" ∧
    DefaultEventValidator.validate rOk = true := by
  intro ctx rErr rLogin rOk
  refine ⟨(C5_ingestion_validation rErr ctx 1 0).1 rfl rfl,
          (C5_ingestion_validation rLogin ctx 2 0).2.1 rfl rfl,
          ((C5_ingestion_validation rOk ctx 3 0).2.2 (by decide) (by decide) (by decide)).1⟩

theorem mem_insertByTsDesc {e x : Event} {l : List Event}
    (h : x ∈ insertByTsDesc e l) : x = e ∨ x ∈ l := by
  induction l with
  | nil => simpa [insertByTsDesc] using h
  | cons y ys ih =>
      rw [insertByTsDesc] at h
      by_cases hy : y.timestamp < e.timestamp
      · rw [if_pos hy] at h
        rcases List.mem_cons.mp h with rfl | h
        · exact Or.inl rfl
        · exact Or.inr h
      · rw [if_neg hy] at h
        rcases List.mem_cons.mp h with rfl | h
        · exact Or.inr (List.mem_cons_self _ _)
        · rcases ih h with rfl | h
          · exact Or.inl rfl
          · exact Or.inr (List.mem_cons_of_mem _ h)

theorem perm_insertByTsDesc (e : Event) (l : List Event) :
    List.Perm (insertByTsDesc e l) (e :: l) := by
  induction l with
  | nil => simp [insertByTsDesc]
  | cons y ys ih =>
      rw [insertByTsDesc]
      by_cases hy : y.timestamp < e.timestamp
      · rw [if_pos hy]
      · rw [if_neg hy]
        exact (ih.cons y).trans (List.Perm.swap e y ys)

theorem perm_sortByTsDesc (l : List Event) : List.Perm (sortByTsDesc l) l := by
  induction l with
  | nil => exact List.Perm.refl []
  | cons x xs ih =>
      exact (perm_insertByTsDesc x (sortByTsDesc xs)).trans (ih.cons x)

theorem pairwise_insertByTsDesc {e : Event} {l : List Event}
    (hl : l.Pairwise (fun a b => b.timestamp ≤ a.timestamp)) :
    (insertByTsDesc e l).Pairwise (fun a b => b.timestamp ≤ a.timestamp) := by
  induction l with
  | nil => simp [insertByTsDesc]
  | cons y ys ih =>
      rcases List.pairwise_cons.mp hl with ⟨hy, hys⟩
      rw [insertByTsDesc]
      by_cases hlt : y.timestamp < e.timestamp
      · rw [if_pos hlt]
        refine List.pairwise_cons.mpr ⟨?_, hl⟩
        intro z hz
        rcases List.mem_cons.mp hz with rfl | hz
        · exact le_of_lt hlt
        · exact le_trans (hy z hz) (le_of_lt hlt)
      · rw [if_neg hlt]
        refine List.pairwise_cons.mpr ⟨?_, ih hys⟩
        intro z hz
        rcases mem_insertByTsDesc hz with rfl | hz
        · exact le_of_not_lt hlt
        · exact hy z hz

theorem pairwise_sortByTsDesc (l : List Event) :
    (sortByTsDesc l).Pairwise (fun a b => b.timestamp ≤ a.timestamp) := by
  induction l with
  | nil => simp [sortByTsDesc]
  | cons x xs ih => exact pairwise_insertByTsDesc ih

/-- C6 (amended): `query_events` returns exactly the stored events satisfying
the conjunction of the five filters it implements (`start_time`, `end_time`,
`event_types`, `sources`, `user_ids` — the supplied `tags` filter is ignored),
ordered by timestamp descending and paginated by `limit`/`offset`: every
returned event is a stored event matching all applied clauses, the result is
timestamp-descending, its length is bounded by `limit`, and with no
pagination cut the result is a permutation of the matching rows. -/
theorem C6_query_events (db : List Event) (q : StorageQuery) :
    (∀ e ∈ StorageService.queryEvents db q, e ∈ db ∧ matchesQuery q e = true) ∧
    (StorageService.queryEvents db q).Pairwise
      (fun a b => b.timestamp ≤ a.timestamp) ∧
    (StorageService.queryEvents db q).length ≤ q.limit ∧
    (q.offset = 0 → (db.filter (matchesQuery q)).length ≤ q.limit →
      List.Perm (StorageService.queryEvents db q) (db.filter (matchesQuery q))) := by
  refine ⟨?_, ?_, ?_, ?_⟩
  · intro e he
    have h1 : e ∈ sortByTsDesc (db.filter (matchesQuery q)) :=
      List.drop_subset _ _ (List.take_subset _ _ he)
    have h2 : e ∈ db.filter (matchesQuery q) :=
      (perm_sortByTsDesc _).mem_iff.mp h1
    exact ⟨(List.mem_filter.mp h2).1, (List.mem_filter.mp h2).2⟩
  · exact List.Pairwise.sublist
      ((List.take_sublist _ _).trans (List.drop_sublist _ _))
      (pairwise_sortByTsDesc _)
  · rw [StorageService.queryEvents]
    exact List.length_take_le _ _
  · intro hoff hlen
    have hperm := perm_sortByTsDesc (db.filter (matchesQuery q))
    have hlen' : (sortByTsDesc (db.filter (matchesQuery q))).length ≤ q.limit := by
      rw [hperm.length_eq]
      exact hlen
    rw [StorageService.queryEvents, hoff, List.drop_zero,
      List.take_of_length_le hlen']
    exact hperm

/-- Concrete instance of `C6_query_events`: with `offset = 0` and a large
enough `limit`, the unpaginated query is a permutation of the matching rows. -/
theorem C6_query_events_witness :
    let e1 : Event := { id := 1, type := .webClick, source := "web-app", timestamp := 10,
                        severity := .medium, userId := some "u1", tags := [] }
    let e2 : Event := { id := 2, type := .error, source := "svc", timestamp := 20,
                        severity := .high, userId := none, tags := [] }
    let q : StorageQuery := { startTime := none, endTime := none,
                              eventTypes := some [.webClick], sources := none,
                              userIds := none, tags := none, limit := 100, offset := 0 }
    List.Perm (StorageService.queryEvents [e1, e2] q) ([e1, e2].filter (matchesQuery q)) := by
  intro e1 e2 q
  exact (C6_query_events [e1, e2] q).2.2.2 rfl (by decide)

/-- C6 counterexample: the claim as stated requires the `tags` filter to be
applied, but the SQL builder never adds a `tags` clause — an event carrying
only tag `"a"` is returned by a query whose `tags` filter is `["b"]`. -/
theorem C6_counterexample :
    let e : Event := { id := 1, type := .webClick, source := "web-app", timestamp := 10,
                       severity := .medium, userId := some "u1", tags := ["a"] }
    let q : StorageQuery := { startTime := none, endTime := none, eventTypes := none,
                              sources := none, userIds := none, tags := some ["b"],
                              limit := 100, offset := 0 }
    StorageService.queryEvents [e] q = [e] ∧ e.tags.contains "b" = false := by
  exact ⟨by decide, by decide⟩

/-- C9: any failure inside `query_events` is caught and surfaced as the empty
list, which is exactly what a successful query over an empty (or fully
non-matching) store returns — the caller cannot tell the two apart. -/
theorem C9_query_error_indistinguishable (q : StorageQuery) (msg : String) :
    StorageService.queryEventsSafe (Except.error msg) q = [] ∧
    StorageService.queryEventsSafe (Except.ok []) q = [] := by
  constructor
  · rfl
  · simp [StorageService.queryEventsSafe, StorageService.queryEvents, sortByTsDesc]

theorem any_id_iff_rowCount (rows : List Event) (i : Nat) :
    rows.any (fun r => r.id = i) = true ↔ rowCount rows i ≠ 0 := by
  rw [List.any_eq_true, rowCount]
  constructor
  · rintro ⟨x, hx, hpx⟩
    intro hlen
    rw [List.length_eq_zero] at hlen
    have hmem : x ∈ rows.filter (fun r => decide (r.id = i)) :=
      List.mem_filter.mpr ⟨hx, hpx⟩
    rw [hlen] at hmem
    exact absurd hmem (List.not_mem_nil x)
  · intro h
    have hpos : 0 < (rows.filter (fun r => decide (r.id = i))).length :=
      Nat.pos_of_ne_zero h
    obtain ⟨x, hx⟩ := List.exists_mem_of_length_pos hpos
    exact ⟨x, (List.mem_filter.mp hx).1, (List.mem_filter.mp hx).2⟩

/-- A duplicate submission is a counted failure, not a silent success: when a
row with the same id exists, `store_event` leaves the table unchanged,
increments the error counter and returns `False`. -/
theorem storeEvent_duplicate (rows : List Event) (c : StoreCounters) (e : Event)
    (h : rowCount rows e.id ≠ 0) :
    StorageService.storeEvent rows c e =
      (rows, { c with errorTotal := c.errorTotal + 1 }, false) := by
  have hany := (any_id_iff_rowCount rows e.id).mpr h
  simp [StorageService.storeEvent, insertRow, hany]

theorem storeEvent_fresh (rows : List Event) (c : StoreCounters) (e : Event)
    (h : rowCount rows e.id = 0) :
    StorageService.storeEvent rows c e =
      (rows ++ [e], { c with successTotal := c.successTotal + 1 }, true) := by
  have hany : rows.any (fun r => r.id = e.id) = false := by
    by_contra hc
    exact (any_id_iff_rowCount rows e.id).mp (by simpa using hc) h
  simp [StorageService.storeEvent, insertRow, hany]

theorem rowCount_append_self (rows : List Event) (e : Event) :
    rowCount (rows ++ [e]) e.id = rowCount rows e.id + 1 := by
  simp [rowCount, List.filter_append]

theorem storeRepeat_duplicate (rows : List Event) (c : StoreCounters) (e : Event)
    (h : rowCount rows e.id = 1) (k : Nat) :
    (storeRepeat rows c e k).1 = rows ∧
    (storeRepeat rows c e k).2.successTotal = c.successTotal ∧
    (storeRepeat rows c e k).2.errorTotal = c.errorTotal + k := by
  induction k generalizing c with
  | zero => simp [storeRepeat]
  | succ k ih =>
      have hdup := storeEvent_duplicate rows c e (by rw [h]; exact one_ne_zero)
      rcases ih { c with errorTotal := c.errorTotal + 1 } with ⟨h1, h2, h3⟩
      refine ⟨?_, ?_, ?_⟩
      · rw [storeRepeat, hdup]
        exact h1
      · rw [storeRepeat, hdup]
        exact h2
      · rw [storeRepeat, hdup, h3]
        show c.errorTotal + 1 + k = c.errorTotal + (k + 1)
        omega

/-- C7 (amended): resubmitting an event whose id is already stored never
surfaces an exception, but it is *not* a silent success: each duplicate
attempt returns `False` and increments the error counter, while the table
keeps exactly one row for that id — after `n ≥ 1` submissions of the same
fresh event, the row count for its id is exactly 1, with one success and
`n - 1` counted errors. -/
theorem C7_store_event_idempotent_rows (rows : List Event) (c : StoreCounters)
    (e : Event) (h : rowCount rows e.id = 0) (n : Nat) (hn : 0 < n) :
    rowCount (storeRepeat rows c e n).1 e.id = 1 ∧
    (storeRepeat rows c e n).2.successTotal = c.successTotal + 1 ∧
    (storeRepeat rows c e n).2.errorTotal = c.errorTotal + (n - 1) := by
  obtain ⟨m, rfl⟩ : ∃ m, n = m + 1 := ⟨n - 1, (Nat.succ_pred_eq_of_pos hn).symm⟩
  have hfresh := storeEvent_fresh rows c e h
  have h1 : rowCount (rows ++ [e]) e.id = 1 := by
    rw [rowCount_append_self, h]
  rcases storeRepeat_duplicate (rows ++ [e])
      { c with successTotal := c.successTotal + 1 } e h1 m with ⟨ha, hb, hc⟩
  refine ⟨?_, ?_, ?_⟩
  · rw [storeRepeat, hfresh, ha]
    exact h1
  · rw [storeRepeat, hfresh, hb]
  · rw [storeRepeat, hfresh, hc]
    simp

/-- Concrete instance of `C7_store_event_idempotent_rows` at three
submissions of the same event into an empty table. -/
theorem C7_store_event_idempotent_rows_witness :
    let e : Event := { id := 5, type := .webClick, source := "web-app", timestamp := 0,
                       severity := .medium, userId := none, tags := [] }
    rowCount (storeRepeat [] ⟨0, 0⟩ e 3).1 e.id = 1 ∧
    (storeRepeat [] ⟨0, 0⟩ e 3).2.successTotal = 0 + 1 ∧
    (storeRepeat [] ⟨0, 0⟩ e 3).2.errorTotal = 0 + (3 - 1) := by
  intro e
  exact C7_store_event_idempotent_rows [] ⟨0, 0⟩ e (by decide) 3 (by decide)

/-- C7 counterexample: the second submission of an event id is *not* reported
as a success and *is* counted as an error — `store_event` returns `False`
and bumps the error counter (though the table does keep a single row). -/
theorem C7_counterexample :
    let e : Event := { id := 5, type := .webClick, source := "web-app", timestamp := 0,
                       severity := .medium, userId := none, tags := [] }
    let first := StorageService.storeEvent [] ⟨0, 0⟩ e
    let second := StorageService.storeEvent first.1 first.2.1 e
    second.2.2 = false ∧ second.2.1.errorTotal = 1 ∧ rowCount second.1 e.id = 1 := by
  exact ⟨by decide, by decide, by decide⟩

theorem dictGet_remove_self {κ α : Type} [DecidableEq κ] (l : List (κ × α)) (k : κ) :
    dictGet (dictRemove l k) k = none := by
  induction l with
  | nil => simp [dictRemove, dictGet]
  | cons p rest ih =>
      obtain ⟨pk, pv⟩ := p
      by_cases hp : pk = k
      · simp [dictRemove, hp, ih]
      · simp [dictRemove, dictGet, hp, ih]

/-- C10: `acknowledge_alert` and `resolve_alert` guard on membership in
`active_alerts` and otherwise fall through silently — for an unknown alert id
they raise nothing, report nothing, and leave the engine (rules, active
alerts, alert states) exactly as it was. -/
theorem C10_ack_resolve_missing_noop (eng : AlertEngine) (alertId : Nat)
    (who : String) (now : Int)
    (h : dictGet eng.activeAlerts alertId = none) :
    eng.acknowledgeAlert alertId who now = eng ∧
    eng.resolveAlert alertId who now = eng := by
  constructor
  · simp [AlertEngine.acknowledgeAlert, h]
  · simp [AlertEngine.resolveAlert, h]

/-- Concrete instance of `C10_ack_resolve_missing_noop` on an engine with an
empty active set. -/
theorem C10_ack_resolve_missing_noop_witness :
    let eng : AlertEngine := { rules := [], activeAlerts := [], alertStates := [] }
    eng.acknowledgeAlert 42 "ops" 7 = eng ∧ eng.resolveAlert 42 "ops" 7 = eng := by
  intro eng
  exact C10_ack_resolve_missing_noop eng 42 "ops" 7 (by decide)

/-- From a false `_is_alert_suppressed` check (with a positive suppression
window): every unresolved active alert of the rule fired at or before
`now - suppression_minutes * 60`. -/
theorem timestamps_of_not_suppressed (eng : AlertEngine) (rule : AlertRule)
    (now : Int) (hm : 0 < rule.suppressionMinutes)
    (hns : eng.isAlertSuppressed rule now = false)
    {i : Nat} {a : Alert} (ha : dictGet eng.activeAlerts i = some a)
    (hrid : a.ruleId = rule.id) (hres : a.resolved = false) :
    a.timestamp ≤ now - rule.suppressionMinutes * 60 := by
  rw [AlertEngine.isAlertSuppressed, if_neg (by omega)] at hns
  by_contra hlt
  push_neg at hlt
  have hany : eng.activeAlerts.any (fun p =>
      decide (p.2.ruleId = rule.id) &&
      decide (now - rule.suppressionMinutes * 60 < p.2.timestamp) &&
      !p.2.resolved) = true := by
    rw [List.any_eq_true]
    refine ⟨(i, a), dictGet_mem ha, ?_⟩
    simp [hrid, hres, hlt]
  rw [hns] at hany
  exact Bool.false_ne_true hany

/-- Transfer principle: `SuppressionInv` transfers along any transformation of the active set
that maps present entries to old entries with the same rule id, timestamp
and resolution flag. -/
theorem suppressionInv_of_lookup_hom (rid : Nat) (m : Int) (eng eng' : AlertEngine)
    (hinv : SuppressionInv rid m eng)
    (h : ∀ i a, dictGet eng'.activeAlerts i = some a →
      ∃ a', dictGet eng.activeAlerts i = some a' ∧ a.ruleId = a'.ruleId ∧
        a.timestamp = a'.timestamp ∧ a.resolved = a'.resolved) :
    SuppressionInv rid m eng' := by
  obtain ⟨hu, hs⟩ := hinv
  constructor
  · intro i a ha
    obtain ⟨a', ha', _, _, hres⟩ := h i a ha
    rw [hres]
    exact hu i a' ha'
  · intro i j a b ha hb hij hra hrb
    obtain ⟨a', ha', hra', hta', _⟩ := h i a ha
    obtain ⟨b', hb', hrb', htb', _⟩ := h j b hb
    rw [hta', htb']
    exact hs i j a' b' ha' hb' hij (hra' ▸ hra) (hrb' ▸ hrb)

/-- One engine operation preserves the suppression separation invariant,
provided fire steps for the rule use the rule record itself and no direct
alert message targets the rule. -/
theorem suppressionInv_applyStep (rule : AlertRule) (eng : AlertEngine) (s : EngStep)
    (hm : 0 < rule.suppressionMinutes)
    (hinv : SuppressionInv rule.id rule.suppressionMinutes eng)
    (hf : FireUsesRule rule s = true)
    (hd : NoDirectFor rule.id s = true) :
    SuppressionInv rule.id rule.suppressionMinutes (eng.applyStep s) := by
  obtain ⟨hunres, hsep⟩ := hinv
  cases s with
  | fire r v fid now =>
      show SuppressionInv _ _ (eng.fireAlert r v fid now)
      rw [AlertEngine.fireAlert]
      by_cases hsup : eng.isAlertSuppressed r now = true
      · rw [if_pos hsup]
        exact ⟨hunres, hsep⟩
      · rw [if_neg hsup]
        have hns : eng.isAlertSuppressed r now = false := by
          cases hval : eng.isAlertSuppressed r now
          · rfl
          · exact absurd hval hsup
        constructor
        · intro i a ha
          by_cases hi : i = fid
          · rw [hi, dictGet_set_self] at ha
            injection ha with ha'
            rw [← ha']
            rfl
          · rw [dictGet_set_ne _ _ _ _ hi] at ha
            exact hunres i a ha
        · intro i j a b ha hb hij hra hrb
          by_cases hi : i = fid
          · have hj : j ≠ fid := fun hh => hij (hi.trans hh.symm)
            rw [hi, dictGet_set_self] at ha
            rw [dictGet_set_ne _ _ _ _ hj] at hb
            injection ha with ha'
            have hrid : r.id = rule.id := by
              rw [← ha'] at hra
              exact hra
            have hrr : r = rule := by
              rw [FireUsesRule, if_pos hrid] at hf
              exact of_decide_eq_true hf
            subst hrr
            have hbts := timestamps_of_not_suppressed eng r now hm hns hb hrb
              (hunres j b hb)
            have hats : a.timestamp = now := by
              rw [← ha']
              rfl
            left
            rw [hats]
            omega
          · by_cases hj : j = fid
            · rw [hj, dictGet_set_self] at hb
              rw [dictGet_set_ne _ _ _ _ hi] at ha
              injection hb with hb'
              have hrid : r.id = rule.id := by
                rw [← hb'] at hrb
                exact hrb
              have hrr : r = rule := by
                rw [FireUsesRule, if_pos hrid] at hf
                exact of_decide_eq_true hf
              subst hrr
              have hats := timestamps_of_not_suppressed eng r now hm hns ha hra
                (hunres i a ha)
              have hbts : b.timestamp = now := by
                rw [← hb']
                rfl
              right
              rw [hbts]
              omega
            · rw [dictGet_set_ne _ _ _ _ hi] at ha
              rw [dictGet_set_ne _ _ _ _ hj] at hb
              exact hsep i j a b ha hb hij hra hrb
  | direct p fid now =>
      show SuppressionInv _ _ (eng.processDirectAlert p fid now)
      rw [AlertEngine.processDirectAlert]
      have hpd : p.ruleId ≠ rule.id := by
        rw [NoDirectFor] at hd
        exact of_decide_eq_true hd
      constructor
      · intro i a ha
        by_cases hi : i = fid
        · rw [hi, dictGet_set_self] at ha
          injection ha with ha'
          rw [← ha']
          rfl
        · rw [dictGet_set_ne _ _ _ _ hi] at ha
          exact hunres i a ha
      · intro i j a b ha hb hij hra hrb
        by_cases hi : i = fid
        · rw [hi, dictGet_set_self] at ha
          injection ha with ha'
          rw [← ha'] at hra
          exact absurd hra hpd
        · by_cases hj : j = fid
          · rw [hj, dictGet_set_self] at hb
            injection hb with hb'
            rw [← hb'] at hrb
            exact absurd hrb hpd
          · rw [dictGet_set_ne _ _ _ _ hi] at ha
            rw [dictGet_set_ne _ _ _ _ hj] at hb
            exact hsep i j a b ha hb hij hra hrb
  | ack aid who now =>
      show SuppressionInv _ _ (eng.acknowledgeAlert aid who now)
      refine suppressionInv_of_lookup_hom _ _ eng _ ⟨hunres, hsep⟩ ?_
      intro i a ha
      rw [AlertEngine.acknowledgeAlert] at ha
      cases hget : dictGet eng.activeAlerts aid with
      | none =>
          rw [hget] at ha
          exact ⟨a, ha, rfl, rfl, rfl⟩
      | some a0 =>
          rw [hget] at ha
          simp only at ha
          by_cases hi : i = aid
          · rw [hi, dictGet_set_self] at ha
            injection ha with ha'
            rw [hi]
            exact ⟨a0, hget, by rw [← ha'], by rw [← ha'], by rw [← ha']⟩
          · rw [dictGet_set_ne _ _ _ _ hi] at ha
            exact ⟨a, ha, rfl, rfl, rfl⟩
  | resolve aid who now =>
      show SuppressionInv _ _ (eng.resolveAlert aid who now)
      refine suppressionInv_of_lookup_hom _ _ eng _ ⟨hunres, hsep⟩ ?_
      intro i a ha
      rw [AlertEngine.resolveAlert] at ha
      cases hget : dictGet eng.activeAlerts aid with
      | none =>
          rw [hget] at ha
          exact ⟨a, ha, rfl, rfl, rfl⟩
      | some a0 =>
          rw [hget] at ha
          simp only at ha
          by_cases hi : i = aid
          · rw [hi, dictGet_remove_self] at ha
            exact absurd ha (by simp)
          · rw [dictGet_remove_ne _ _ _ hi] at ha
            exact ⟨a, ha, rfl, rfl, rfl⟩
  | scan now fid =>
      show SuppressionInv _ _ (eng.lifecycleScan now fid).1
      exact ⟨hunres, hsep⟩

/-- The suppression separation invariant is preserved along any trace of
engine operations satisfying the two trace conditions. -/
theorem suppressionInv_runSteps (rule : AlertRule) (steps : List EngStep) :
    ∀ eng : AlertEngine, 0 < rule.suppressionMinutes →
      SuppressionInv rule.id rule.suppressionMinutes eng →
      (∀ s ∈ steps, FireUsesRule rule s = true) →
      (∀ s ∈ steps, NoDirectFor rule.id s = true) →
      SuppressionInv rule.id rule.suppressionMinutes (eng.runSteps steps) := by
  induction steps with
  | nil =>
      intro eng _ hinv _ _
      exact hinv
  | cons s rest ih =>
      intro eng hm hinv hf hd
      exact ih (eng.applyStep s)
        hm
        (suppressionInv_applyStep rule eng s hm hinv
          (hf s (List.mem_cons_self _ _)) (hd s (List.mem_cons_self _ _)))
        (fun x hx => hf x (List.mem_cons_of_mem _ hx))
        (fun x hx => hd x (List.mem_cons_of_mem _ hx))

/-- C2 (amended): along every execution in which the distinguished rule is
fired only through the rule-evaluation path (`_fire_alert`, which consults
`_is_alert_suppressed`) — i.e. no direct alert message carries its rule id —
a rule with `suppression_minutes = m > 0` has at most one unresolved active
alert in any `m`-minute window: two active alerts of that rule whose
timestamps both fall in `[T, T + m*60)` are the same entry. -/
theorem C2_suppression_rule_path (rule : AlertRule) (eng : AlertEngine)
    (steps : List EngStep)
    (hm : 0 < rule.suppressionMinutes)
    (hinv : SuppressionInv rule.id rule.suppressionMinutes eng)
    (hf : ∀ s ∈ steps, FireUsesRule rule s = true)
    (hd : ∀ s ∈ steps, NoDirectFor rule.id s = true) :
    ∀ T i j a b,
      dictGet (eng.runSteps steps).activeAlerts i = some a →
      dictGet (eng.runSteps steps).activeAlerts j = some b →
      a.ruleId = rule.id → b.ruleId = rule.id →
      T ≤ a.timestamp → a.timestamp < T + rule.suppressionMinutes * 60 →
      T ≤ b.timestamp → b.timestamp < T + rule.suppressionMinutes * 60 →
      i = j := by
  intro T i j a b ha hb hra hrb h1 h2 h3 h4
  by_contra hij
  obtain ⟨_, hs⟩ := suppressionInv_runSteps rule steps eng hm hinv hf hd
  rcases hs i j a b ha hb hij hra hrb with h | h <;> omega

/-- Concrete instance of `C2_suppression_rule_path`: two fire attempts of a
5-minute-suppression rule 60 seconds apart, starting from an empty engine. -/
theorem C2_suppression_rule_path_witness :
    let rule : AlertRule := { id := 1, name := "r", condition := "value > 10",
                              threshold := 10, level := .warning, enabled := true,
                              suppressionMinutes := 5, escalationMinutes := 0 }
    let eng : AlertEngine := { rules := [(1, rule)], activeAlerts := [], alertStates := [] }
    let steps : List EngStep := [.fire rule 11 100 0, .fire rule 12 101 60]
    ∀ T i j a b,
      dictGet (eng.runSteps steps).activeAlerts i = some a →
      dictGet (eng.runSteps steps).activeAlerts j = some b →
      a.ruleId = rule.id → b.ruleId = rule.id →
      T ≤ a.timestamp → a.timestamp < T + rule.suppressionMinutes * 60 →
      T ≤ b.timestamp → b.timestamp < T + rule.suppressionMinutes * 60 →
      i = j := by
  intro rule eng steps
  exact C2_suppression_rule_path rule eng steps (by decide)
    ⟨fun i a h => by simp [dictGet] at h, fun i j a b h => by simp [dictGet] at h⟩
    (by decide) (by decide)

/-- C2 counterexample: the direct-alert path stores alerts without consulting
`_is_alert_suppressed`.  Two direct alert messages for a rule with
`suppression_minutes = 5` arriving 60 seconds apart leave *two* unresolved
active alerts of that rule inside one 5-minute window — even though the
second firing was inside the suppression window (`_is_alert_suppressed`
returns `True` at that moment). -/
theorem C2_counterexample :
    let rule : AlertRule := { id := 1, name := "r", condition := "value > 10",
                              threshold := 10, level := .warning, enabled := true,
                              suppressionMinutes := 5, escalationMinutes := 0 }
    let p : DirectAlertPayload := { ruleId := 1, level := .warning,
                                    title := "direct", message := "m" }
    let eng0 : AlertEngine := { rules := [(1, rule)], activeAlerts := [], alertStates := [] }
    let eng1 := eng0.processDirectAlert p 100 0
    let eng2 := eng1.processDirectAlert p 101 60
    eng1.isAlertSuppressed rule 60 = true ∧
    (eng2.activeAlerts.filter (fun q =>
        decide (q.2.ruleId = 1) && !q.2.resolved &&
        decide (0 ≤ q.2.timestamp) && decide (q.2.timestamp < 5 * 60))).length = 2 := by
  exact ⟨by decide, by decide⟩

theorem scanFold_untouched (rules : List (Nat × AlertRule)) (now : Int)
    (l : List (Nat × Alert)) (aid : Nat) :
    ∀ st : List (Nat × AlertState) × List (Nat × Alert) × Nat,
      (∀ p ∈ l, p.1 ≠ aid) →
      dictGet (l.foldl (scanStep rules now) st).1 aid = dictGet st.1 aid ∧
      (l.foldl (scanStep rules now) st).2.1.filter (fun q => decide (q.1 = aid)) =
        st.2.1.filter (fun q => decide (q.1 = aid)) := by
  induction l with
  | nil =>
      intro st _
      exact ⟨rfl, rfl⟩
  | cons p rest ih =>
      intro st h
      have hp : p.1 ≠ aid := h p (List.mem_cons_self _ _)
      have hstep : dictGet (scanStep rules now st p).1 aid = dictGet st.1 aid ∧
          (scanStep rules now st p).2.1.filter (fun q => decide (q.1 = aid)) =
            st.2.1.filter (fun q => decide (q.1 = aid)) := by
        rw [scanStep]
        split
        · exact ⟨rfl, rfl⟩
        · split
          · exact ⟨rfl, rfl⟩
          · split
            · constructor
              · exact dictGet_set_ne _ _ _ _ (Ne.symm hp)
              · simp [List.filter_append, hp]
            · exact ⟨rfl, rfl⟩
      rw [List.foldl_cons]
      obtain ⟨h1, h2⟩ := ih (scanStep rules now st p)
        (fun q hq => h q (List.mem_cons_of_mem _ hq))
      exact ⟨h1.trans hstep.1, h2.trans hstep.2⟩

theorem exists_split_of_mem_nodup {l : List (Nat × Alert)} {aid : Nat} {a : Alert}
    (hmem : (aid, a) ∈ l) (hnd : (l.map Prod.fst).Nodup) :
    ∃ l1 l2, l = l1 ++ (aid, a) :: l2 ∧
      (∀ p ∈ l1, p.1 ≠ aid) ∧ (∀ p ∈ l2, p.1 ≠ aid) := by
  obtain ⟨l1, l2, rfl⟩ := List.append_of_mem hmem
  rw [List.map_append, List.map_cons] at hnd
  obtain ⟨hnd1, hnd2, hdisj⟩ := List.nodup_append.mp hnd
  refine ⟨l1, l2, rfl, ?_, ?_⟩
  · intro p hp heq
    have h1 : aid ∈ l1.map Prod.fst := heq ▸ List.mem_map_of_mem Prod.fst hp
    exact hdisj h1 (List.mem_cons_self _ _)
  · intro p hp heq
    have h2 : aid ∈ l2.map Prod.fst := heq ▸ List.mem_map_of_mem Prod.fst hp
    exact (List.nodup_cons.mp hnd2).1 h2

/-- A lifecycle scan never touches `active_alerts` or `rules`. -/
theorem lifecycleScan_fixed (eng : AlertEngine) (now : Int) (fid : Nat) :
    (eng.lifecycleScan now fid).1.activeAlerts = eng.activeAlerts ∧
    (eng.lifecycleScan now fid).1.rules = eng.rules :=
  ⟨rfl, rfl⟩

/-- A scan in which the target alert is *not* escalation-eligible (its state
is already `ESCALATED`, or the deadline has not passed) emits no clone for it
and leaves its state entry unchanged. -/
theorem lifecycleScan_target_skip (eng : AlertEngine) (now : Int) (fid : Nat)
    (aid : Nat) (a : Alert) (rule : AlertRule)
    (hnd : (eng.activeAlerts.map Prod.fst).Nodup)
    (hmem : (aid, a) ∈ eng.activeAlerts)
    (hres : a.resolved = false) (hack : a.acknowledged = false)
    (hrule : dictGet eng.rules a.ruleId = some rule)
    (hm : 0 < rule.escalationMinutes)
    (hcond : dictGet eng.alertStates aid = some AlertState.escalated ∨
      now < a.timestamp + rule.escalationMinutes * 60) :
    (eng.lifecycleScan now fid).2.filter (fun q => decide (q.1 = aid)) = [] ∧
    dictGet (eng.lifecycleScan now fid).1.alertStates aid =
      dictGet eng.alertStates aid := by
  obtain ⟨l1, l2, hsplit, h1, h2⟩ := exists_split_of_mem_nodup hmem hnd
  rw [AlertEngine.lifecycleScan]
  simp only
  rw [hsplit, List.foldl_append, List.foldl_cons]
  obtain ⟨ha1, ha2⟩ := scanFold_untouched eng.rules now l1 aid
    (eng.alertStates, [], fid) h1
  have htarget : scanStep eng.rules now
      (l1.foldl (scanStep eng.rules now) (eng.alertStates, [], fid)) (aid, a) =
      l1.foldl (scanStep eng.rules now) (eng.alertStates, [], fid) := by
    rw [scanStep]
    rw [if_neg (by simp [hres])]
    simp only [hrule]
    rw [if_neg]
    rintro ⟨_, _, hne, hle⟩
    rcases hcond with hesc | hlate
    · exact hne (ha1.trans hesc)
    · omega
  rw [htarget]
  obtain ⟨hb1, hb2⟩ := scanFold_untouched eng.rules now l2 aid
    (l1.foldl (scanStep eng.rules now) (eng.alertStates, [], fid)) h2
  constructor
  · rw [hb2, ha2]
    rfl
  · rw [hb1, ha1]

/-- A scan in which the target alert *is* escalation-eligible emits exactly
one clone for it (for some fresh clone id) and flips its state to
`ESCALATED`. -/
theorem lifecycleScan_target_hit (eng : AlertEngine) (now : Int) (fid : Nat)
    (aid : Nat) (a : Alert) (rule : AlertRule)
    (hnd : (eng.activeAlerts.map Prod.fst).Nodup)
    (hmem : (aid, a) ∈ eng.activeAlerts)
    (hres : a.resolved = false) (hack : a.acknowledged = false)
    (hrule : dictGet eng.rules a.ruleId = some rule)
    (hm : 0 < rule.escalationMinutes)
    (hstate : dictGet eng.alertStates aid ≠ some AlertState.escalated)
    (hdue : a.timestamp + rule.escalationMinutes * 60 ≤ now) :
    (∃ cid, (eng.lifecycleScan now fid).2.filter (fun q => decide (q.1 = aid)) =
      [(aid, escalationClone a rule cid now)]) ∧
    dictGet (eng.lifecycleScan now fid).1.alertStates aid =
      some AlertState.escalated := by
  obtain ⟨l1, l2, hsplit, h1, h2⟩ := exists_split_of_mem_nodup hmem hnd
  rw [AlertEngine.lifecycleScan]
  simp only
  rw [hsplit, List.foldl_append, List.foldl_cons]
  obtain ⟨ha1, ha2⟩ := scanFold_untouched eng.rules now l1 aid
    (eng.alertStates, [], fid) h1
  have htarget : scanStep eng.rules now
      (l1.foldl (scanStep eng.rules now) (eng.alertStates, [], fid)) (aid, a) =
      (dictSet (l1.foldl (scanStep eng.rules now) (eng.alertStates, [], fid)).1
         aid AlertState.escalated,
       (l1.foldl (scanStep eng.rules now) (eng.alertStates, [], fid)).2.1 ++
         [(aid, escalationClone a rule
            (l1.foldl (scanStep eng.rules now) (eng.alertStates, [], fid)).2.2 now)],
       (l1.foldl (scanStep eng.rules now) (eng.alertStates, [], fid)).2.2 + 1) := by
    rw [scanStep]
    rw [if_neg (by simp [hres])]
    simp only [hrule]
    rw [if_pos]
    exact ⟨hm, hack, by rw [ha1]; exact hstate, hdue⟩
  rw [htarget]
  obtain ⟨hb1, hb2⟩ := scanFold_untouched eng.rules now l2 aid
    (dictSet (l1.foldl (scanStep eng.rules now) (eng.alertStates, [], fid)).1
       aid AlertState.escalated,
     (l1.foldl (scanStep eng.rules now) (eng.alertStates, [], fid)).2.1 ++
       [(aid, escalationClone a rule
          (l1.foldl (scanStep eng.rules now) (eng.alertStates, [], fid)).2.2 now)],
     (l1.foldl (scanStep eng.rules now) (eng.alertStates, [], fid)).2.2 + 1) h2
  constructor
  · refine ⟨(l1.foldl (scanStep eng.rules now) (eng.alertStates, [], fid)).2.2, ?_⟩
    rw [hb2]
    simp only [List.filter_append, ha2]
    simp
  · rw [hb1]
    exact dictGet_set_self _ _ _

/-- Once the target alert's state is `ESCALATED`, any number of further
scans emits no clone for it and keeps the state `ESCALATED`. -/
theorem runScans_escalated_stable (scans : List (Int × Nat))
    (aid : Nat) (a : Alert) (rule : AlertRule)
    (hres : a.resolved = false) (hack : a.acknowledged = false)
    (hm : 0 < rule.escalationMinutes) :
    ∀ eng : AlertEngine,
      (eng.activeAlerts.map Prod.fst).Nodup →
      (aid, a) ∈ eng.activeAlerts →
      dictGet eng.rules a.ruleId = some rule →
      dictGet eng.alertStates aid = some AlertState.escalated →
      (eng.runScans scans).2.filter (fun q => decide (q.1 = aid)) = [] ∧
      dictGet (eng.runScans scans).1.alertStates aid = some AlertState.escalated := by
  induction scans with
  | nil =>
      intro eng _ _ _ hesc
      exact ⟨rfl, hesc⟩
  | cons sc rest ih =>
      intro eng hnd hmem hrule hesc
      obtain ⟨hfil, hst⟩ := lifecycleScan_target_skip eng sc.1 sc.2 aid a rule
        hnd hmem hres hack hrule hm (Or.inl hesc)
      obtain ⟨hfil2, hesc2⟩ := ih (eng.lifecycleScan sc.1 sc.2).1
        hnd hmem hrule (hst.trans hesc)
      rw [AlertEngine.runScans]
      constructor
      · rw [List.filter_append, hfil, hfil2]
        rfl
      · exact hesc2

/-- Across a sequence of scans of which at least one falls past the
escalation deadline, a not-yet-escalated, unacknowledged, unresolved target
alert receives exactly one escalation clone and ends `ESCALATED`. -/
theorem runScans_target (scans : List (Int × Nat))
    (aid : Nat) (a : Alert) (rule : AlertRule)
    (hres : a.resolved = false) (hack : a.acknowledged = false)
    (hm : 0 < rule.escalationMinutes) :
    ∀ eng : AlertEngine,
      (eng.activeAlerts.map Prod.fst).Nodup →
      (aid, a) ∈ eng.activeAlerts →
      dictGet eng.rules a.ruleId = some rule →
      dictGet eng.alertStates aid ≠ some AlertState.escalated →
      (∃ sc ∈ scans, a.timestamp + rule.escalationMinutes * 60 ≤ sc.1) →
      (∃ cid t, (eng.runScans scans).2.filter (fun q => decide (q.1 = aid)) =
        [(aid, escalationClone a rule cid t)]) ∧
      dictGet (eng.runScans scans).1.alertStates aid = some AlertState.escalated := by
  induction scans with
  | nil =>
      intro eng _ _ _ _ hdue
      simp at hdue
  | cons sc rest ih =>
      intro eng hnd hmem hrule hstate hdue
      by_cases hs : a.timestamp + rule.escalationMinutes * 60 ≤ sc.1
      · obtain ⟨⟨cid, hfil⟩, hesc⟩ := lifecycleScan_target_hit eng sc.1 sc.2
          aid a rule hnd hmem hres hack hrule hm hstate hs
        obtain ⟨hfil2, hesc2⟩ := runScans_escalated_stable rest aid a rule
          hres hack hm (eng.lifecycleScan sc.1 sc.2).1 hnd hmem hrule hesc
        rw [AlertEngine.runScans]
        constructor
        · refine ⟨cid, sc.1, ?_⟩
          rw [List.filter_append, hfil, hfil2]
          rfl
        · exact hesc2
      · obtain ⟨hfil, hst⟩ := lifecycleScan_target_skip eng sc.1 sc.2 aid a rule
          hnd hmem hres hack hrule hm (Or.inr (by omega))
        have hstate2 : dictGet (eng.lifecycleScan sc.1 sc.2).1.alertStates aid ≠
            some AlertState.escalated := by
          rw [hst]
          exact hstate
        have hdue2 : ∃ x ∈ rest, a.timestamp + rule.escalationMinutes * 60 ≤ x.1 := by
          rcases hdue with ⟨x, hx, hxle⟩
          rcases List.mem_cons.mp hx with rfl | hx2
          · exact absurd hxle hs
          · exact ⟨x, hx2, hxle⟩
        obtain ⟨⟨cid, t, hfl⟩, hesc⟩ := ih (eng.lifecycleScan sc.1 sc.2).1
          hnd hmem hrule hstate2 hdue2
        rw [AlertEngine.runScans]
        constructor
        · refine ⟨cid, t, ?_⟩
          rw [List.filter_append, hfil, hfl]
          rfl
        · exact hesc

/-- C3: an active alert whose rule has `escalation_minutes > 0`, unresolved
and unacknowledged, whose state is not yet `escalated`, receives — across any
sequence of lifecycle-manager scans at least one of which falls past the
deadline — exactly one escalation clone; every clone emitted for it has level
forced to `critical` and title `ESCALATED: ` prefixed to the original title;
and the original alert's state is marked `escalated`.  Later scans can never
produce a second escalation because `_escalate_alert` records the
`ESCALATED` state before emitting. -/
theorem C3_escalation_exactly_once (eng : AlertEngine)
    (aid : Nat) (a : Alert) (rule : AlertRule) (scans : List (Int × Nat))
    (hnd : (eng.activeAlerts.map Prod.fst).Nodup)
    (hmem : (aid, a) ∈ eng.activeAlerts)
    (hres : a.resolved = false) (hack : a.acknowledged = false)
    (hrule : dictGet eng.rules a.ruleId = some rule)
    (hm : 0 < rule.escalationMinutes)
    (hstate : dictGet eng.alertStates aid ≠ some AlertState.escalated)
    (hdue : ∃ sc ∈ scans, a.timestamp + rule.escalationMinutes * 60 ≤ sc.1) :
    (∃ cid t, (eng.runScans scans).2.filter (fun q => decide (q.1 = aid)) =
      [(aid, escalationClone a rule cid t)]) ∧
    (∀ q ∈ (eng.runScans scans).2, q.1 = aid →
      q.2.level = AlertLevel.critical ∧ q.2.title = "ESCALATED: " ++ a.title) ∧
    dictGet (eng.runScans scans).1.alertStates aid = some AlertState.escalated := by
  obtain ⟨⟨cid, t, hfil⟩, hesc⟩ := runScans_target scans aid a rule hres hack hm
    eng hnd hmem hrule hstate hdue
  refine ⟨⟨cid, t, hfil⟩, ?_, hesc⟩
  intro q hq hqa
  have hqf : q ∈ (eng.runScans scans).2.filter (fun q => decide (q.1 = aid)) :=
    List.mem_filter.mpr ⟨hq, by simp [hqa]⟩
  rw [hfil] at hqf
  rw [List.mem_singleton.mp hqf]
  exact ⟨rfl, rfl⟩

/-- Concrete instance of `C3_escalation_exactly_once`: a 1-minute escalation
rule, an active alert fired at time 0, three scans of which the last two are
past the deadline — the clone list for the alert is a singleton and the
state ends `escalated`. -/
theorem C3_escalation_exactly_once_witness :
    let rule : AlertRule := { id := 1, name := "r", condition := "value > 10",
                              threshold := 10, level := .warning, enabled := true,
                              suppressionMinutes := 0, escalationMinutes := 1 }
    let a : Alert := { id := 10, ruleId := 1, level := .warning, title := "t",
                       message := "m", timestamp := 0, resolved := false,
                       resolvedAt := none, resolvedBy := none, acknowledged := false,
                       acknowledgedAt := none, acknowledgedBy := none }
    let eng : AlertEngine := { rules := [(1, rule)], activeAlerts := [(10, a)],
                               alertStates := [(10, .active)] }
    let scans : List (Int × Nat) := [(30, 50), (70, 60), (200, 70)]
    (∃ cid t, (eng.runScans scans).2.filter (fun q => decide (q.1 = 10)) =
      [(10, escalationClone a rule cid t)]) ∧
    (∀ q ∈ (eng.runScans scans).2, q.1 = 10 →
      q.2.level = AlertLevel.critical ∧ q.2.title = "ESCALATED: " ++ a.title) ∧
    dictGet (eng.runScans scans).1.alertStates 10 = some AlertState.escalated := by
  intro rule a eng scans
  exact C3_escalation_exactly_once eng 10 a rule scans (by decide) (by decide)
    (by decide) (by decide) (by decide) (by decide) (by decide) (by decide)

end StreamFlow
